import Mathlib

/-!
Verification of the sourcecrate client-side search pipeline.

This file gives a shallow embedding, in Lean 4, of the deduplication,
merging, scoring, membership-filter and orchestration code of the
repository (`js/processing-poc.js`, `js/bloom-filter.js`, `js/api.js`,
`js/utils.js`, `js/api-clients/orchestrator.js`) and proves or refutes
the behavioural claims made by the specification.

Modelling conventions:
* JavaScript numbers used as 32-bit integers (the bloom-filter hash
  mixing with `>>> 0`) are modelled as `Nat` with explicit `% 2^32`.
* JavaScript floating-point arithmetic on scores is modelled over `ℚ`;
  `Math.log` is an explicit function parameter `log : ℚ → ℚ` since the
  properties proved here do not depend on the numerical value of the
  logarithm.
* `null`/`undefined` record fields are modelled with `Option`;
  JavaScript truthiness (`""`, `0`, `null`, `undefined` are falsy,
  arrays are always truthy) is modelled by the explicit `truthy…`
  helpers below.
* Strings are Lean strings; `toLowerCase` is modelled on the ASCII
  range (the inputs relevant to the claims are ASCII, and every claim
  proved below is invariant under the exact choice of case-folding,
  because the code always applies the same normalization to both sides
  of a comparison).
-/

set_option maxRecDepth 4000
set_option maxHeartbeats 1000000

namespace SourceCrate

/-! ## JavaScript string primitives -/

/-- ASCII case folding, the fragment of `String.prototype.toLowerCase`
exercised by the claims. -/
def jsLowerChar (c : Char) : Char :=
  if 'A' ≤ c ∧ c ≤ 'Z' then Char.ofNat (c.toNat + 32) else c

/-- Model of `s.toLowerCase()`. -/
def jsToLower (s : String) : String := String.mk (s.data.map jsLowerChar)

/-- Whitespace class of the JavaScript `\s` regular-expression class
(ASCII fragment: space, tab, newline, carriage return, vertical tab,
form feed). -/
def isWsChar (c : Char) : Bool :=
  c = ' ' || c = '\t' || c = '\n' || c = '\r' || c.toNat = 11 || c.toNat = 12

def trimCharsList (l : List Char) : List Char :=
  ((l.dropWhile isWsChar).reverse.dropWhile isWsChar).reverse

/-- Model of `s.trim()`. -/
def jsTrim (s : String) : String := String.mk (trimCharsList s.data)

def splitWsAux : List Char → List Char → List (List Char)
  | [], cur => if cur.isEmpty then [] else [cur.reverse]
  | c :: rest, cur =>
    if isWsChar c then
      if cur.isEmpty then splitWsAux rest [] else cur.reverse :: splitWsAux rest []
    else splitWsAux rest (c :: cur)

/-- Model of `s.split(/\s+/)` restricted to its productive tokens.
JavaScript's split can additionally emit one empty leading token when
the string starts with whitespace; every call site in the sources
immediately filters tokens by `length > 2` (or joins them back), so the
empty tokens are never observable and are dropped here. -/
def splitWs (s : String) : List String := (splitWsAux s.data []).map String.mk

/-- Model of `hay.includes(needle)` (substring containment). -/
def containsSub (hay needle : String) : Bool :=
  (hay.data.tails).any (fun t => needle.data.isPrefixOf t)

/-- Model of `s.startsWith(p)`. -/
def jsStartsWith (s p : String) : Bool := p.data.isPrefixOf s.data

/-- Word character class of the JavaScript `\w` regular-expression
class, which is exactly `[A-Za-z0-9_]`. -/
def isWordChar (c : Char) : Bool :=
  ('a' ≤ c && c ≤ 'z') || ('A' ≤ c && c ≤ 'Z') || ('0' ≤ c && c ≤ '9') || c = '_'

/-! ## JavaScript truthiness helpers -/

/-- Truthiness of an optional string: `null`, `undefined` and `""` are
falsy. -/
def truthyS : Option String → Bool
  | some s => s ≠ ""
  | none => false

/-- Model of `a || b` on nullable strings. -/
def jsOrS (a b : Option String) : Option String := if truthyS a then a else b

/-- Truthiness of an optional integer: `null`, `undefined` and `0` are
falsy. -/
def truthyYear : Option Int → Bool
  | some y => y ≠ 0
  | none => false

/-- Model of `a || b` on nullable numeric years. -/
def jsOrYear (a b : Option Int) : Option Int := if truthyYear a then a else b

/-- Model of `a || b` on nullable arrays: every array (also `[]`) is
truthy. -/
def jsOrArr {α : Type} (a b : Option (List α)) : Option (List α) :=
  if a.isSome then a else b

/-- Model of `Math.min` on rationals (kernel-computable form). -/
def jsMin (a b : ℚ) : ℚ := if a ≤ b then a else b

/-- Model of `Math.max` on rationals (kernel-computable form). -/
def jsMax (a b : ℚ) : ℚ := if a ≤ b then b else a

/-- Model of `(a || d)` on a nullable count (`0` is falsy). -/
def jsOrNat (a : Option Nat) (d : Nat) : Nat :=
  match a with
  | some n => if n = 0 then d else n
  | none => d

/-! ## Membership filter (`js/bloom-filter.js`, class `BloomFilter`)

The JavaScript hash mixers operate on numbers coerced back to unsigned
32-bit integers with `>>> 0`; they are modelled as `Nat` arithmetic
with an explicit `% 2^32` at each mixing step.  `charCodeAt` is
modelled by the character's code point (identical on the basic
multilingual plane). -/

def UINT32 : Nat := 4294967296

/-- FNV-1a variant: `hash ^= c; hash = (hash * 16777619) >>> 0`. -/
def hash1 (size : Nat) (s : String) : Nat :=
  (s.data.foldl (fun h c => ((Nat.xor h c.toNat) * 16777619) % UINT32) 2166136261) % size

/-- DJB2: `hash = ((hash << 5) + hash) + c`, kept in 32 bits, which is
`hash * 33 + c (mod 2^32)`. -/
def hash2 (size : Nat) (s : String) : Nat :=
  (s.data.foldl (fun h c => (h * 33 + c.toNat) % UINT32) 5381) % size

/-- SDBM: `hash = c + (hash << 6) + (hash << 16) - hash`, kept in 32
bits, which is `c + hash * 65599 (mod 2^32)`. -/
def hash3 (size : Nat) (s : String) : Nat :=
  (s.data.foldl (fun h c => (c.toNat + 65599 * h) % UINT32) 0) % size

/-- Bloom-filter state: the `size` field and the `Uint8Array` of bit
bytes, modelled as a total map from byte index to byte value. -/
structure BloomState where
  size : Nat
  bits : Nat → Nat

/-- Model of `setBit(position)`: `bits[pos >> 3] |= 1 << (pos & 7)`. -/
def setBit (st : BloomState) (position : Nat) : BloomState :=
  { st with
    bits := fun i =>
      if i = position / 8 then (st.bits i) ||| (1 <<< (position % 8)) else st.bits i }

/-- Model of `getBit(position)`: `(bits[pos >> 3] & (1 << (pos & 7))) !== 0`. -/
def getBit (st : BloomState) (position : Nat) : Bool :=
  ((st.bits (position / 8)) &&& (1 <<< (position % 8))) != 0

/-- Both `add` and `mightContain` first normalize the key with
`String(item).toLowerCase().trim()`. -/
def bloomNormalize (item : String) : String := jsTrim (jsToLower item)

/-- Model of `BloomFilter.add(item)`. -/
def bloomAdd (st : BloomState) (item : String) : BloomState :=
  let s := bloomNormalize item
  setBit (setBit (setBit st (hash1 st.size s)) (hash2 st.size s)) (hash3 st.size s)

/-- Model of `BloomFilter.mightContain(item)`. -/
def mightContain (st : BloomState) (item : String) : Bool :=
  let s := bloomNormalize item
  getBit st (hash1 st.size s) && getBit st (hash2 st.size s) && getBit st (hash3 st.size s)

/-- A freshly constructed filter (`new BloomFilter(size)`): all bits
zero. -/
def freshBloom (size : Nat) : BloomState := ⟨size, fun _ => 0⟩

/-! ## Data model: papers and source links -/

/-- Provenance record built by `PaperProcessor.mergePapers` (one entry
of the `_source_links` array). -/
structure SourceLink where
  source : Option String
  pdf_url : Option String
  url : Option String
  has_pdf : Bool
  is_open_access : Bool
  citation_count : Nat
deriving DecidableEq

/-- The common paper record shape produced by the source adapters and
consumed by the processing pipeline.  The `srcSources`, `mergedCount`
and `srcLinks` fields model the `_sources`, `_merged_count` and
`_source_links` bookkeeping fields added during merging. -/
structure Paper where
  title : Option String
  authors : Option (List String)
  abstract : Option String
  doi : Option String
  year : Option Int
  journal : Option String
  url : Option String
  pdf_url : Option String
  open_access_pdf : Option String
  source : Option String
  citation_count : Option Nat
  is_open_access : Bool
  relevance_score : Option ℚ
  srcSources : Option (List (Option String))
  mergedCount : Option Nat
  srcLinks : Option (List SourceLink)
deriving DecidableEq

/-- A record with every nullable field absent; concrete records below
are built from it by structure update, mirroring adapter output. -/
def basePaper : Paper :=
  { title := none, authors := none, abstract := none, doi := none,
    year := none, journal := none, url := none, pdf_url := none,
    open_access_pdf := none, source := none, citation_count := none,
    is_open_access := false, relevance_score := none,
    srcSources := none, mergedCount := none, srcLinks := none }

/-- Model of `parseInt(paper.citation_count) || 0`. -/
def ccOf (p : Paper) : Nat := p.citation_count.getD 0

/-! ## Fuzzy matcher (`js/processing-poc.js`, class `FuzzyMatcher`) -/

/-- Model of `FuzzyMatcher.getBigrams`: the set of 2-character
substrings. -/
def getBigrams (s : String) : Finset (List Char) :=
  ((s.data.zip s.data.tail).map (fun p => [p.1, p.2])).toFinset

/-- Model of `FuzzyMatcher.similarity`: Dice coefficient over character
bigrams, with the guards of the source in order (`!str1 || !str2`,
equality after lowering/trimming, length-below-2, empty bigram sets). -/
def similarity (str1 str2 : String) : ℚ :=
  if str1 = "" ∨ str2 = "" then 0
  else if jsTrim (jsToLower str1) = jsTrim (jsToLower str2) then 1
  else if (jsTrim (jsToLower str1)).length < 2 ∨ (jsTrim (jsToLower str2)).length < 2 then 0
  else if (getBigrams (jsTrim (jsToLower str1))).card = 0 ∧
      (getBigrams (jsTrim (jsToLower str2))).card = 0 then 1
  else if (getBigrams (jsTrim (jsToLower str1))).card = 0 ∨
      (getBigrams (jsTrim (jsToLower str2))).card = 0 then 0
  else (2 * ((getBigrams (jsTrim (jsToLower str1)) ∩
          getBigrams (jsTrim (jsToLower str2))).card : ℚ)) /
       (((getBigrams (jsTrim (jsToLower str1))).card : ℚ) +
        ((getBigrams (jsTrim (jsToLower str2))).card : ℚ))

/-- Model of `FuzzyMatcher.normalizeTitle`: lowercase, replace
`[^\w\s]` by a space, collapse whitespace runs, trim.  Collapsing and
trimming are realized together by re-joining the whitespace-split
tokens with single spaces. -/
def normalizeTitle (title : Option String) : String :=
  match title with
  | none => ""
  | some t =>
    let replaced :=
      String.mk ((jsToLower t).data.map (fun c => if isWordChar c || isWsChar c then c else ' '))
    String.intercalate " " (splitWs replaced)

/-! ## Tokenizer and stemmer (`js/processing-poc.js`) -/

/-- The fixed 20-word stopword list of the source. -/
def STOPWORDS : List String :=
  ["the", "and", "for", "that", "this", "with", "from", "was", "are",
   "been", "have", "has", "will", "would", "can", "but", "not", "all", "what", "which"]

def endsWithStr (s sfx : String) : Bool := sfx.data.isSuffixOf s.data

/-- Model of `s.replace(/sfx$/, repl)`: replace the suffix `sfx` by
`repl` when present, otherwise return `s` unchanged. -/
def replaceSuffix (s sfx repl : String) : String :=
  if endsWithStr s sfx then
    String.mk (s.data.take (s.data.length - sfx.data.length) ++ repl.data)
  else s

def isVowel (c : Char) : Bool := c = 'a' || c = 'e' || c = 'i' || c = 'o' || c = 'u'

/-- Model of `/[^aeiou]$/.test(s)`: the last character exists and is
not a vowel. -/
def lastCharIsConsonant (s : String) : Bool :=
  match s.data.getLast? with
  | some c => !(isVowel c)
  | none => false

def dropLastChars (s : String) (n : Nat) : String :=
  String.mk (s.data.take (s.data.length - n))

/-- Model of `enhancedStem`, the Porter-like suffix stripper, with the
exact branch structure of the source: the first block of suffix
replacements (returning early when any fired), the `/(.{3,})ing$/` and
`/(.{3,})ed$/` branches with their vowel heuristics, then the
`ies`/`es`/`s` cascade guarded by comparisons against the original
word. -/
def enhancedStem (word : String) : String :=
  if word.length ≤ 3 then word
  else
    let stem := word
    let stem := replaceSuffix stem "ational" "ate"
    let stem := replaceSuffix stem "tional" "tion"
    let stem := replaceSuffix stem "ization" "ize"
    let stem := replaceSuffix stem "isation" "ise"
    let stem := replaceSuffix stem "iveness" "ive"
    let stem := replaceSuffix stem "fulness" "ful"
    let stem := replaceSuffix stem "ousness" "ous"
    let stem := replaceSuffix stem "ingly" ""
    if stem ≠ word then stem
    else if endsWithStr stem "ing" ∧ 6 ≤ stem.length then
      -- `/(.{3,})ing$/`: at least three captured characters
      let st2 := dropLastChars stem 3
      if lastCharIsConsonant st2 ∧ 3 < st2.length then st2.push 'e' else st2
    else if endsWithStr stem "ed" ∧ 5 ≤ stem.length then
      -- `/(.{3,})ed$/`
      let st2 := dropLastChars stem 2
      if lastCharIsConsonant st2 ∧ 3 < st2.length ∧ ¬(endsWithStr st2 "e" = true)
      then st2.push 'e' else st2
    else
      let stem2 := replaceSuffix stem "ies" "y"
      if stem2 ≠ word then stem2
      else
        let stem3 :=
          if endsWithStr stem2 "es" ∧ 4 < stem2.length then
            let t := dropLastChars stem2 2
            if lastCharIsConsonant t then t.push 'e' else t
          else stem2
        if stem3 = word ∧ endsWithStr stem3 "s" ∧ 3 < stem3.length ∧
            ¬(endsWithStr stem3 "ss" = true)
        then dropLastChars stem3 1 else stem3

/-- Model of `tokenize(text)` with the default flags (stemming and
stopword filtering on): lowercase, replace `[^\w\s-]` by a space,
split on whitespace, keep tokens of length `> 2`, drop stopwords,
stem. -/
def tokenize (text : String) : List String :=
  let lowered := jsToLower text
  let replaced :=
    String.mk (lowered.data.map (fun c => if isWordChar c || isWsChar c || c = '-' then c else ' '))
  let tokens := (splitWs replaced).filter (fun w => 2 < w.length)
  let noStop := tokens.filter (fun w => !(STOPWORDS.contains w))
  noStop.map enhancedStem

/-! ## BM25 scorer (`js/processing-poc.js`, class `BM25Scorer`) -/

/-- BM25 parameter `k1 = 1.7`. -/
def k1 : ℚ := 17/10

/-- BM25 parameter `b = 0.85`. -/
def bParam : ℚ := 17/20

/-- Corpus statistics of the scorer (`documentFrequency`, `totalDocs`).
`processedDocIds` only guards `updateCorpusStats` and plays no part in
`score`, so it is not needed here. -/
structure ScorerStats where
  documentFrequency : List (String × Nat)
  totalDocs : Nat

/-- Model of `this.documentFrequency.get(term) || 0`. -/
def dfGet (st : ScorerStats) (term : String) : Nat :=
  match st.documentFrequency.find? (fun p => p.1 == term) with
  | some p => p.2
  | none => 0

/-- Empty corpus statistics (state after `reset()`). -/
def emptyStats : ScorerStats := ⟨[], 0⟩

/-- Model of `calculateIDF(term)` with the Robertson–Zaragoza formula
and the `0.1` floor.  `log` is the abstract `Math.log`. -/
def calculateIDF (log : ℚ → ℚ) (st : ScorerStats) (term : String) : ℚ :=
  if st.totalDocs = 0 then 0
  else
    let df := dfGet st term
    if df = 0 then 0
    else jsMax (1/10) (log (((st.totalDocs : ℚ) - (df : ℚ) + 1/2) / ((df : ℚ) + 1/2)))

/-- Model of `getPaperText(paper)`: three copies of the title, the
abstract, and the journal when truthy, joined by spaces.  The authors
block of the source is deliberately disabled (commented out) to avoid
surname false positives, so authors contribute nothing here either. -/
def getPaperText (paper : Paper) : String :=
  let titleS := paper.title.getD ""
  let abstractS := paper.abstract.getD ""
  let journalS := paper.journal.getD ""
  String.intercalate " "
    ([titleS, titleS, titleS, abstractS] ++ (if journalS ≠ "" then [journalS] else []))

/-- Model of `query.toLowerCase().replace(/['"]/g, '').trim()`. -/
def removeQuotesLower (query : String) : String :=
  jsTrim (String.mk ((jsToLower query).data.filter (fun c => c ≠ '\'' && c ≠ '"')))

/-- Model of the capitalized-term detection in `score`: words of the
raw query of length `> 2` starting with `[A-Z]`, lowered and
stemmed. -/
def capitalizedStems (query : String) : List String :=
  ((splitWs query).filter (fun w =>
      2 < w.length &&
      (match w.data.head? with
       | some c => 'A' ≤ c && c ≤ 'Z'
       | none => false))).map (fun w => enhancedStem (jsToLower w))

/-- An occurrence of `needle` at offset `i` of `hay` with `\b` word
boundaries on both sides (the needles used all consist of word
characters, for which the JavaScript `\b` is exactly this test). -/
def hasWordAt (hay needle : List Char) (i : Nat) : Bool :=
  needle.isPrefixOf (hay.drop i)
  && (i = 0 || !(isWordChar (hay.getD (i-1) ' ')))
  && (hay.length ≤ i + needle.length || !(isWordChar (hay.getD (i + needle.length) ' ')))

def containsWord (hay needle : String) : Bool :=
  (List.range (hay.data.length + 1)).any (fun i => hasWordAt hay.data needle.data i)

/-- Model of `/\b(recent|latest|new|2024|2025|current)\b/i.test(query)`. -/
def timeSensitiveRe (query : String) : Bool :=
  let q := jsToLower query
  containsWord q "recent" || containsWord q "latest" || containsWord q "new" ||
  containsWord q "2024" || containsWord q "2025" || containsWord q "current"

/-- The raw BM25 accumulation loop of `score` (term frequency times
IDF times capitalization weight, summed over the query terms). -/
def rawBM25 (log : ℚ → ℚ) (st : ScorerStats) (queryTerms capTerms paperTokens : List String)
    (avgLength : ℚ) : ℚ :=
  let docLength : ℚ := (paperTokens.length : ℚ)
  queryTerms.foldl (fun acc term =>
    let termFreq := paperTokens.count term
    if termFreq = 0 then acc
    else
      let tf : ℚ := (termFreq : ℚ)
      let tfComponent := (tf * (k1 + 1)) / (tf + k1 * (1 - bParam + bParam * (docLength / avgLength)))
      let idf := calculateIDF log st term
      let termWeight : ℚ := if capTerms.contains term then 2 else 1
      acc + tfComponent * idf * termWeight) 0

/-- The fixed theoretical maximum of the normalization:
`|queryTerms| * (k1 + 1) * log((200 - 0.5) / 0.5) * maxTermWeight`. -/
def theoreticalMaxOf (log : ℚ → ℚ) (nTerms : Nat) : ℚ :=
  (nTerms : ℚ) * (k1 + 1) * log (((200 : ℚ) - 1/2) / (1/2)) * 2

/-- The fixed-scale normalization of `score`: the raw sum divided by
the theoretical maximum, clamped into `[0, 100]` (and the degenerate
`50` when the theoretical maximum is not positive). -/
def normalizedBase (log : ℚ → ℚ) (nTerms : Nat) (raw : ℚ) : ℚ :=
  if 0 < theoreticalMaxOf log nTerms
  then jsMax 0 (jsMin 100 ((raw / theoreticalMaxOf log nTerms) * 100))
  else 50

/-- The query words of the coverage computation: whitespace-split
lowered query, tokens of length `> 2`. -/
def coverageWords (queryLower : String) : List String :=
  (splitWs queryLower).filter (fun w => 2 < w.length)

/-- The `titleCoverage` ratio of `score`: fraction of query words
contained in the title. -/
def titleCoverageOf (titleLower queryLower : String) : ℚ :=
  if 0 < (coverageWords queryLower).length then
    ((((coverageWords queryLower).filter (fun w => containsSub titleLower w)).length : ℚ) /
      ((coverageWords queryLower).length : ℚ))
  else 0

/-- The title-boost block of `score`: `+100` for the full query as a
substring of the title, otherwise the coverage ladder
`+80 / +50 / +30 / +15`, each capped at `100`. -/
def titleBoost (titleLower queryLower : String) (ns : ℚ) : ℚ :=
  if containsSub titleLower queryLower then jsMin 100 (ns + 100)
  else if 1 ≤ titleCoverageOf titleLower queryLower then jsMin 100 (ns + 80)
  else if 3/4 ≤ titleCoverageOf titleLower queryLower then jsMin 100 (ns + 50)
  else if 1/2 ≤ titleCoverageOf titleLower queryLower then jsMin 100 (ns + 30)
  else if 0 < titleCoverageOf titleLower queryLower then jsMin 100 (ns + 15)
  else ns

/-- The abstract-boost block of `score`: `+40`, capped at `100`, when
the full query is a substring of the abstract but not of the title. -/
def abstractBoost (titleLower abstractLower queryLower : String) (ns : ℚ) : ℚ :=
  if ¬(containsSub titleLower queryLower = true) ∧ containsSub abstractLower queryLower
  then jsMin 100 (ns + 40) else ns

/-- The recency block of `score`: for a time-sensitive query and a
truthy year at most one year old, `+20 * (1 - yearsOld)`, capped at
`100`. -/
def recencyBoost (currentYear : Int) (year : Option Int) (timeSensitive : Bool) (ns : ℚ) : ℚ :=
  if timeSensitive ∧ truthyYear year then
    if currentYear - year.getD 0 ≤ 1 ∧ 0 ≤ currentYear - year.getD 0
    then jsMin 100 (ns + 20 * (1 - ((currentYear - year.getD 0 : Int) : ℚ)))
    else ns
  else ns

/-- Model of `BM25Scorer.score(paper, query, avgLength)`.  `log` is the
abstract `Math.log` and `currentYear` the abstract
`new Date().getFullYear()`.  The explicit-quoted-phrases loop at the
end of the source inspects the title but never changes the score
(its body only breaks), so it has no counterpart here. -/
def score (log : ℚ → ℚ) (currentYear : Int) (st : ScorerStats) (paper : Paper)
    (query : String) (avgLength : ℚ) : ℚ :=
  if (tokenize query).length = 0 then 50
  else
    recencyBoost currentYear paper.year (timeSensitiveRe query)
      (abstractBoost (jsToLower (paper.title.getD "")) (jsToLower (paper.abstract.getD ""))
        (removeQuotesLower query)
        (titleBoost (jsToLower (paper.title.getD "")) (removeQuotesLower query)
          (normalizedBase log (tokenize query).length
            (rawBM25 log st (tokenize query) (capitalizedStems query)
              (tokenize (getPaperText paper)) avgLength))))

/-! ## Paper processor (`js/processing-poc.js`, class `PaperProcessor`) -/

/-- The fixed duplicate threshold `0.85 = 17/20`, written as an
already-normalized rational so that comparisons against it compute in
the kernel. -/
def dedupeThreshold : ℚ := ⟨17, 20, by norm_num, by norm_num⟩

/-- Model of `PaperProcessor.getPaperKey`: `doi:` plus the lowercased
DOI when the DOI is truthy, else `title:` plus the normalized title. -/
def getPaperKey (paper : Paper) : String :=
  if truthyS paper.doi then "doi:" ++ jsToLower (paper.doi.getD "")
  else "title:" ++ normalizeTitle paper.title

/-- Model of `PaperProcessor.areDuplicates`: equal lowercased truthy
DOIs, else bigram Dice similarity of the normalized titles against the
threshold (false when either normalized title is empty). -/
def areDuplicates (paper1 paper2 : Paper) : Bool :=
  if truthyS paper1.doi && truthyS paper2.doi &&
      (jsToLower (paper1.doi.getD "") == jsToLower (paper2.doi.getD "")) then true
  else
    let title1 := normalizeTitle paper1.title
    let title2 := normalizeTitle paper2.title
    if title1 = "" ∨ title2 = "" then false
    else decide (dedupeThreshold ≤ similarity title1 title2)

/-- Model of `PaperProcessor.isValidPdfUrl` (the merge helper): http(s)
scheme, not a DOI-resolver URL. -/
def isValidPdfUrl (url : String) : Bool :=
  (jsStartsWith url "http://" || jsStartsWith url "https://")
  && !(containsSub url "doi.org/")
  && !(jsStartsWith url "https://doi.apa.org/")

/-- Model of `has_pdf: !!(pdf && this.isValidPdfUrl(pdf))`. -/
def hasPdfOf (v : Option String) : Bool :=
  match v with
  | some s => s ≠ "" && isValidPdfUrl s
  | none => false

/-- Model of `x || null`. -/
def orNull (v : Option String) : Option String := if truthyS v then v else none

/-- The source-link object pushed by `mergePapers` for one contributing
record. -/
def mkLink (p : Paper) : SourceLink :=
  let pdf := jsOrS p.pdf_url p.open_access_pdf
  { source := p.source
    pdf_url := orNull pdf
    url := orNull p.url
    has_pdf := hasPdfOf pdf
    is_open_access := p.is_open_access
    citation_count := ccOf p }

/-- Model of `selectBestPDF`: prefer the URL that exists, then the
shorter one. -/
def selectBestPDF (url1 url2 : Option String) : Option String :=
  if ¬(truthyS url1 = true) then url2
  else if ¬(truthyS url2 = true) then url1
  else if (url1.getD "").length < (url2.getD "").length then url1 else url2

/-- Model of `PaperProcessor.mergePapers(existing, newPaper)`: spread
of `existing`, first-truthy-wins fields, best PDF, maximum citation
count, appended provenance.  When `existing` has no `_source_links`
yet, a link for `existing` itself is created first; a link for
`newPaper` is then pushed unconditionally. -/
def mergePapers (existing newPaper : Paper) : Paper :=
  let links0 :=
    match existing.srcLinks with
    | some ls => ls
    | none => [mkLink existing]
  let sourceLinks := links0 ++ [mkLink newPaper]
  { existing with
    title := jsOrS existing.title newPaper.title
    authors := jsOrArr existing.authors newPaper.authors
    abstract := jsOrS existing.abstract newPaper.abstract
    doi := jsOrS existing.doi newPaper.doi
    year := jsOrYear existing.year newPaper.year
    journal := jsOrS existing.journal newPaper.journal
    url := jsOrS existing.url newPaper.url
    pdf_url := selectBestPDF (jsOrS existing.pdf_url existing.open_access_pdf)
                             (jsOrS newPaper.pdf_url newPaper.open_access_pdf)
    citation_count := some (max (ccOf existing) (ccOf newPaper))
    srcSources := some ((existing.srcSources.getD [existing.source]) ++ [newPaper.source])
    mergedCount := some (jsOrNat existing.mergedCount 1 + 1)
    srcLinks := some sourceLinks
    source := existing.source }

/-- Number of source links of `p` recorded for source `s`. -/
def linkCountFor (p : Paper) (s : Option String) : Nat :=
  ((p.srcLinks.getD []).filter (fun l => l.source == s)).length

/-! ## Streaming deduplication of `js/api.js` (`searchWithClient`,
`onResults` handler)

`papersByKey` and the DOI index are JavaScript `Map`s; they are
modelled as insertion-ordered association lists with the `Map`
semantics of `get`/`set`/`has` (updates in place, appends fresh keys,
iteration in insertion order). -/

def alGet {α : Type} (m : List (String × α)) (k : String) : Option α :=
  (m.find? (fun e => e.1 == k)).map (fun e => e.2)

def alHas {α : Type} (m : List (String × α)) (k : String) : Bool :=
  m.any (fun e => e.1 == k)

def alSet {α : Type} (m : List (String × α)) (k : String) (v : α) : List (String × α) :=
  if alHas m k then m.map (fun e => if e.1 == k then (k, v) else e) else m ++ [(k, v)]

/-- The per-query deduplication state owned by `searchWithClient`:
`papersByKey`, `doiIndex` and the DOI bloom filter. -/
structure DedupState where
  papersByKey : List (String × Paper)
  doiIndex : List (String × String)
  bloom : BloomState

/-- The state at the start of a fresh query: empty maps and
`new BloomFilter(10000)`. -/
def emptyDedupState : DedupState :=
  { papersByKey := [], doiIndex := [], bloom := freshBloom 10000 }

/-- `paper.doi.toLowerCase().trim()` as used by the dedup fast path. -/
def normDoi (d : String) : String := jsTrim (jsToLower d)

/-- The ultra-fast path of the `onResults` dedup: for a truthy DOI,
test the bloom filter; on "definitely absent" insert the DOI into the
filter, otherwise consult the authoritative DOI index.  Returns
`(foundDuplicate, matchKey, bloom)` as left by this phase. -/
def fastPath (st : DedupState) (paper : Paper) : Bool × Option String × BloomState :=
  match paper.doi with
  | some d =>
    if d ≠ "" then
      if ¬(mightContain st.bloom (normDoi d) = true) then
        (false, none, bloomAdd st.bloom (normDoi d))
      else
        match alGet st.doiIndex (normDoi d) with
        | some k => (true, some k, st.bloom)
        | none => (false, none, st.bloom)
    else (false, none, st.bloom)
  | none => (false, none, st.bloom)

/-- The slow path: fuzzy matching over `papersByKey` in insertion
order (first match wins), entered only when the fast path found no
duplicate. -/
def slowPath (st : DedupState) (paper : Paper) :
    Bool × Option String × BloomState → Bool × Option String × BloomState
  | (found0, matchKey0, bloom1) =>
    if found0 then (found0, matchKey0, bloom1)
    else
      match st.papersByKey.find? (fun e => areDuplicates e.2 paper) with
      | some e => (true, some e.1, bloom1)
      | none => (false, none, bloom1)

/-- The commit phase: merge into the matched key (with the defensive
re-add when the key has no paper), or add the record as new and — for
a truthy DOI — index it and insert it into the bloom filter (again). -/
def commitRecord (st : DedupState) (paper : Paper) :
    Bool × Option String × BloomState → DedupState
  | (foundDuplicate, matchKey, bloom1) =>
    if foundDuplicate ∧ matchKey.isSome then
      match alGet st.papersByKey (matchKey.getD "") with
      | some existing =>
        { st with
          papersByKey := alSet st.papersByKey (matchKey.getD "") (mergePapers existing paper)
          bloom := bloom1 }
      | none =>
        { st with
          papersByKey := alSet st.papersByKey (getPaperKey paper) paper
          bloom := bloom1 }
    else
      match paper.doi with
      | some d =>
        if d ≠ "" then
          { papersByKey := alSet st.papersByKey (getPaperKey paper) paper
            doiIndex := alSet st.doiIndex (normDoi d) (getPaperKey paper)
            bloom := bloomAdd bloom1 (normDoi d) }
        else
          { st with
            papersByKey := alSet st.papersByKey (getPaperKey paper) paper
            bloom := bloom1 }
      | none =>
        { st with
          papersByKey := alSet st.papersByKey (getPaperKey paper) paper
          bloom := bloom1 }

/-- Model of the per-record body of the `onResults` handler of
`searchWithClient`: the bloom-filter fast path, the authoritative DOI
index lookup, the fuzzy fallback loop over `papersByKey`, and the
merge/add-new commit.  The `newPapers` batch and the rendering side
effects carry no dedup state and are omitted. -/
def processRecord (st : DedupState) (paper : Paper) : DedupState :=
  commitRecord st paper (slowPath st paper (fastPath st paper))

/-! ## Relevance sorting (`js/utils.js`) -/

/-- Three-way lexicographic comparison of character lists, the model of
`titleA.localeCompare(titleB)` (sign only; modelled as code-point
order). -/
def lexOrd : List Char → List Char → Ordering
  | [], [] => .eq
  | [], _ :: _ => .lt
  | _ :: _, [] => .gt
  | a :: as, b :: bs => if a < b then .lt else if b < a then .gt else lexOrd as bs

/-- A comparator result of the sign expected by `Array.prototype.sort`. -/
def ordQ : Ordering → ℚ
  | .lt => -1
  | .eq => 0
  | .gt => 1

/-- Model of the comparator of `sortByRelevance` (`js/utils.js`):
relevance score descending, falling back to ascending lowercased-title
comparison when the scores differ by at most `0.1`. -/
def relCmp (a b : Paper) : ℚ :=
  let scoreA := a.relevance_score.getD 0
  let scoreB := b.relevance_score.getD 0
  let scoreDiff := scoreB - scoreA
  if 1/10 < |scoreDiff| then scoreDiff
  else ordQ (lexOrd (jsToLower (a.title.getD "")).data (jsToLower (b.title.getD "")).data)

/-- Modelled from the spec: the comparator of `sortSearchResults` in
its explicit `citations-desc` sort mode.  The implementation of
`sortSearchResults` is not under `src/` (only its unit tests are); the
tests and the spec state that this mode orders by citation count
descending, which is what is modelled here.  Every other mode falls
back to the relevance comparator. -/
def sortSearchResultsCmp (mode : String) (a b : Paper) : ℚ :=
  if mode = "citations-desc" then ((ccOf b : ℚ) - (ccOf a : ℚ))
  else relCmp a b

/-! ## Orchestrator (`js/api-clients/orchestrator.js`,
`searchWithCallbacks`)

One source settlement is either a resolved list of papers or a caught
exception message.  The single-threaded event-loop interleaving is
modelled by processing the sources of the list in order: the list
argument ranges over every settlement order, and all properties proved
below are independent of that order. -/

inductive Outcome where
  | ok (papers : List Paper)
  | err (msg : String)
deriving DecidableEq

/-- Number of records a settled source contributed (0 for a failed
source). -/
def returnedCount : Outcome → Nat
  | .ok ps => ps.length
  | .err _ => 0

/-- The `error` field passed to `onSourceComplete`. -/
def errOf : Outcome → Option String
  | .ok _ => none
  | .err m => some m

/-- The observable callback invocations of `searchWithCallbacks`. -/
inductive CbEvent where
  | sourceStart (source : String)
  | results (source : String) (papers : List Paper) (count : Nat)
  | sourceComplete (source : String) (count completed total : Nat) (error : Option String)
  | complete (sourcesSearched sourcesSuccessful totalResults : Nat) (elapsedMs : ℚ)
deriving DecidableEq

def isCompleteEvt : CbEvent → Bool
  | .complete _ _ _ _ => true
  | _ => false

def isSourceCompleteEvt : CbEvent → Bool
  | .sourceComplete _ _ _ _ _ => true
  | _ => false

/-- The `onComplete` summary object. -/
structure SearchSummary where
  sources_searched : Nat
  sources_successful : Nat
  total_results : Nat
  elapsed_ms : ℚ
deriving DecidableEq

/-- The settlement loop of `searchWithCallbacks`: for each source, on
success an `onResults` event when at least one paper came back, the
completion-counter increment, and `onSourceComplete` without error; on
a caught exception the counter increment and `onSourceComplete` with
the error message.  Returns the events together with the final
`sourcesCompleted`, `sourcesSuccessful` and `totalResults` counters. -/
def runSettle (total : Nat) :
    List (String × Outcome) → Nat → Nat → Nat → List CbEvent × Nat × Nat × Nat
  | [], completed, successful, totalResults => ([], completed, successful, totalResults)
  | (name, .ok papers) :: rest, completed, successful, totalResults =>
    let resEvts := if 0 < papers.length then [CbEvent.results name papers papers.length] else []
    let completed1 := completed + 1
    let successful1 := if 0 < papers.length then successful + 1 else successful
    let totalResults1 := if 0 < papers.length then totalResults + papers.length else totalResults
    let r := runSettle total rest completed1 successful1 totalResults1
    (resEvts ++ [CbEvent.sourceComplete name papers.length completed1 total none] ++ r.1, r.2)
  | (name, .err msg) :: rest, completed, successful, totalResults =>
    let completed1 := completed + 1
    let r := runSettle total rest completed1 successful totalResults
    (CbEvent.sourceComplete name 0 completed1 total (some msg) :: r.1, r.2)

/-- Model of `searchWithCallbacks`: all `onSourceStart` events fire at
fan-out time (synchronously, before any settlement), the settlement
loop follows, and a single `onComplete` with the summary closes the
trace. -/
def searchWithCallbacks (sources : List (String × Outcome)) (elapsedMs : ℚ) :
    List CbEvent × SearchSummary :=
  let starts := sources.map (fun p => CbEvent.sourceStart p.1)
  let r := runSettle sources.length sources 0 0 0
  let summary : SearchSummary :=
    { sources_searched := sources.length
      sources_successful := r.2.2.1
      total_results := r.2.2.2
      elapsed_ms := elapsedMs }
  (starts ++ r.1 ++ [CbEvent.complete sources.length r.2.2.1 r.2.2.2 elapsedMs], summary)

/-! ## Concrete records used by witnesses and counterexamples -/

/-- A concrete stand-in for `Math.log` used only to instantiate the
abstract logarithm in closed evaluations (its value is irrelevant to
the statements it witnesses). -/
def logStub : ℚ → ℚ := fun _ => 6

/-- Three records with the same normalized DOI from three distinct
sources, as in the specification's "machine learning" scenario. -/
def recArxiv : Paper :=
  { basePaper with
    doi := some "10.1/ABC"
    title := some "Machine Learning"
    source := some "arxiv"
    citation_count := some 10 }

def recCrossref : Paper :=
  { basePaper with
    doi := some "10.1/abc"
    title := some "Machine Learning"
    source := some "crossref"
    citation_count := some 30 }

def recOpenalex : Paper :=
  { basePaper with
    doi := some "10.1/abc"
    title := some "Machine Learning"
    source := some "openalex"
    citation_count := some 20 }

/-- A DOI-less record already in the result set (fuzzy-only identity). -/
def recNoDoi : Paper :=
  { basePaper with title := some "Neural Networks", source := some "alpha" }

/-- An incoming record with a fresh DOI and a title fuzzy-identical to
`recNoDoi`. -/
def recFreshDoi : Paper :=
  { basePaper with
    title := some "Neural Networks"
    doi := some "10.1/x"
    source := some "beta" }

/-- A first-source record for the provenance counterexample. -/
def recFirst : Paper :=
  { basePaper with source := some "s0", title := some "T" }

/-- The record that is merged twice in the provenance counterexample. -/
def recAgain : Paper :=
  { basePaper with source := some "arxiv", title := some "T" }

/-- Existing record reporting closed access. -/
def recClosedAccess : Paper :=
  { basePaper with source := some "a", is_open_access := false }

/-- Incoming record reporting open access. -/
def recOpenAccess : Paper :=
  { basePaper with source := some "b", is_open_access := true }

/-- Document whose title (and abstract) contain the query verbatim. -/
def docTitleMatch : Paper :=
  { basePaper with title := some "machine learning", abstract := some "machine learning" }

/-- Otherwise-identical document: the title contains both query words
but not the verbatim phrase, the abstract contains the phrase. -/
def docAbstractMatch : Paper :=
  { basePaper with title := some "learning machine", abstract := some "machine learning" }

/-- Two scored papers with equal relevance used by the sorting
witness. -/
def paperZu : Paper :=
  { basePaper with
    title := some "Zu"
    relevance_score := some 50
    citation_count := some 1 }

def paperAb : Paper :=
  { basePaper with
    title := some "Ab"
    relevance_score := some 50
    citation_count := some 999 }

/-! ## Bit-level lemmas for the membership filter -/

theorem land_two_pow_ne_zero_of_testBit (x k : Nat) (h : x.testBit k = true) :
    x &&& 2 ^ k ≠ 0 := by
  rw [Nat.and_two_pow, h]
  simp

theorem getBit_setBit_self (st : BloomState) (p : Nat) :
    getBit (setBit st p) p = true := by
  unfold getBit setBit
  simp only [Nat.one_shiftLeft, bne_iff_ne, ne_eq, if_true]
  apply land_two_pow_ne_zero_of_testBit
  rw [Nat.testBit_lor, Nat.testBit_two_pow_self]
  simp

theorem getBit_setBit_mono (st : BloomState) (p q : Nat) (h : getBit st q = true) :
    getBit (setBit st p) q = true := by
  unfold getBit at h ⊢
  unfold setBit
  simp only [Nat.one_shiftLeft, bne_iff_ne, ne_eq] at h ⊢
  by_cases hb : q / 8 = p / 8
  · simp only [hb, if_true]
    have hx : (st.bits (q / 8)).testBit (q % 8) = true := by
      by_contra hc
      rw [Bool.not_eq_true] at hc
      rw [Nat.and_two_pow, hc] at h
      simp at h
    rw [hb] at hx
    apply land_two_pow_ne_zero_of_testBit
    rw [Nat.testBit_lor, hx]
    simp
  · rw [if_neg hb]
    exact h

theorem getBit_bloomAdd_mono (st : BloomState) (item : String) (q : Nat)
    (h : getBit st q = true) : getBit (bloomAdd st item) q = true := by
  unfold bloomAdd
  exact getBit_setBit_mono _ _ _ (getBit_setBit_mono _ _ _ (getBit_setBit_mono _ _ _ h))

theorem setBit_size (st : BloomState) (p : Nat) : (setBit st p).size = st.size := rfl

theorem bloomAdd_size (st : BloomState) (item : String) :
    (bloomAdd st item).size = st.size := rfl

/-- No false negatives: after `add(key)`, `mightContain(key)` is true,
from any starting state. -/
theorem mightContain_bloomAdd_self (st : BloomState) (key : String) :
    mightContain (bloomAdd st key) key = true := by
  unfold mightContain bloomAdd
  simp only [setBit_size, Bool.and_eq_true]
  refine ⟨⟨?_, ?_⟩, ?_⟩
  · exact getBit_setBit_mono _ _ _ (getBit_setBit_mono _ _ _ (getBit_setBit_self _ _))
  · exact getBit_setBit_mono _ _ _ (getBit_setBit_self _ _)
  · exact getBit_setBit_self _ _

/-- A fresh filter contains nothing. -/
theorem mightContain_fresh (size : Nat) (key : String) :
    mightContain (freshBloom size) key = false := by
  unfold mightContain freshBloom getBit
  simp

/-- Claim C5: The membership filter has zero false negatives: for every
string key (including the empty string, unicode strings and very long
strings) and every filter state, `mightContain key` returns true
immediately after `add key` is performed on that same key. -/
theorem membership_filter_no_false_negatives (bf : BloomState) (key : String) :
    mightContain (bloomAdd bf key) key = true :=
  mightContain_bloomAdd_self bf key

/-! ## Fuzzy similarity: symmetry, range, identity cases -/

theorem similarity_comm (a b : String) : similarity a b = similarity b a := by
  unfold similarity
  by_cases h0 : a = "" ∨ b = ""
  · have h0s : b = "" ∨ a = "" := Or.comm.mp h0
    rw [if_pos h0, if_pos h0s]
  · have h0s : ¬(b = "" ∨ a = "") := fun hc => h0 (Or.comm.mp hc)
    rw [if_neg h0, if_neg h0s]
    by_cases h1 : jsTrim (jsToLower a) = jsTrim (jsToLower b)
    · have h1s : jsTrim (jsToLower b) = jsTrim (jsToLower a) := h1.symm
      rw [if_pos h1, if_pos h1s]
    · have h1s : ¬(jsTrim (jsToLower b) = jsTrim (jsToLower a)) := fun hc => h1 hc.symm
      rw [if_neg h1, if_neg h1s]
      by_cases h2 : (jsTrim (jsToLower a)).length < 2 ∨ (jsTrim (jsToLower b)).length < 2
      · have h2s : (jsTrim (jsToLower b)).length < 2 ∨ (jsTrim (jsToLower a)).length < 2 :=
          Or.comm.mp h2
        rw [if_pos h2, if_pos h2s]
      · have h2s : ¬((jsTrim (jsToLower b)).length < 2 ∨ (jsTrim (jsToLower a)).length < 2) :=
          fun hc => h2 (Or.comm.mp hc)
        rw [if_neg h2, if_neg h2s]
        by_cases h3 : (getBigrams (jsTrim (jsToLower a))).card = 0 ∧
            (getBigrams (jsTrim (jsToLower b))).card = 0
        · have h3s : (getBigrams (jsTrim (jsToLower b))).card = 0 ∧
              (getBigrams (jsTrim (jsToLower a))).card = 0 := And.comm.mp h3
          rw [if_pos h3, if_pos h3s]
        · have h3s : ¬((getBigrams (jsTrim (jsToLower b))).card = 0 ∧
              (getBigrams (jsTrim (jsToLower a))).card = 0) := fun hc => h3 (And.comm.mp hc)
          rw [if_neg h3, if_neg h3s]
          by_cases h4 : (getBigrams (jsTrim (jsToLower a))).card = 0 ∨
              (getBigrams (jsTrim (jsToLower b))).card = 0
          · have h4s : (getBigrams (jsTrim (jsToLower b))).card = 0 ∨
                (getBigrams (jsTrim (jsToLower a))).card = 0 := Or.comm.mp h4
            rw [if_pos h4, if_pos h4s]
          · have h4s : ¬((getBigrams (jsTrim (jsToLower b))).card = 0 ∨
                (getBigrams (jsTrim (jsToLower a))).card = 0) := fun hc => h4 (Or.comm.mp hc)
            rw [if_neg h4, if_neg h4s]
            rw [Finset.inter_comm, add_comm]

theorem similarity_nonneg_le_one (a b : String) :
    0 ≤ similarity a b ∧ similarity a b ≤ 1 := by
  unfold similarity
  split_ifs with h0 h1 h2 h3 h4
  · exact ⟨le_refl 0, by norm_num⟩
  · exact ⟨by norm_num, le_refl 1⟩
  · exact ⟨le_refl 0, by norm_num⟩
  · exact ⟨by norm_num, le_refl 1⟩
  · exact ⟨le_refl 0, by norm_num⟩
  · push_neg at h3 h4
    have hc1 : 0 < (getBigrams (jsTrim (jsToLower a))).card := Nat.pos_of_ne_zero h4.1
    have hc2 : 0 < (getBigrams (jsTrim (jsToLower b))).card := Nat.pos_of_ne_zero h4.2
    have hd : (0 : ℚ) < ((getBigrams (jsTrim (jsToLower a))).card : ℚ) +
        ((getBigrams (jsTrim (jsToLower b))).card : ℚ) := by positivity
    constructor
    · positivity
    · rw [div_le_one hd]
      have hi1 : (getBigrams (jsTrim (jsToLower a)) ∩ getBigrams (jsTrim (jsToLower b))).card ≤
          (getBigrams (jsTrim (jsToLower a))).card :=
        Finset.card_le_card Finset.inter_subset_left
      have hi2 : (getBigrams (jsTrim (jsToLower a)) ∩ getBigrams (jsTrim (jsToLower b))).card ≤
          (getBigrams (jsTrim (jsToLower b))).card :=
        Finset.card_le_card Finset.inter_subset_right
      have : (2 : ℚ) * ((getBigrams (jsTrim (jsToLower a)) ∩
          getBigrams (jsTrim (jsToLower b))).card : ℚ) =
          ((getBigrams (jsTrim (jsToLower a)) ∩ getBigrams (jsTrim (jsToLower b))).card : ℚ) +
          ((getBigrams (jsTrim (jsToLower a)) ∩ getBigrams (jsTrim (jsToLower b))).card : ℚ) := by
        ring
      rw [this]
      have c1 := (Nat.cast_le (α := ℚ)).mpr hi1
      have c2 := (Nat.cast_le (α := ℚ)).mpr hi2
      linarith

theorem similarity_self_normalized (a b : String) (ha : a ≠ "") (hb : b ≠ "")
    (h : jsTrim (jsToLower a) = jsTrim (jsToLower b)) : similarity a b = 1 := by
  unfold similarity
  rw [if_neg (by simp [ha, hb]), if_pos h]

theorem similarity_empty_arg (a b : String) (h : a = "" ∨ b = "") :
    similarity a b = 0 := by
  unfold similarity
  rw [if_pos h]

/-- Counterexample to claim C10: two non-empty whitespace-only strings
both become empty after trimming, yet `similarity` returns `1`, not
`0` (the `!str1 || !str2` guard tests the strings before trimming). -/
theorem similarity_ws_only_cex :
    jsTrim (jsToLower "  ") = "" ∧ jsTrim (jsToLower " ") = "" ∧
    similarity "  " " " = 1 := by
  decide

/-- Claim C10 (amended): `FuzzyMatcher.similarity` is symmetric and
ranges over `[0, 1]`; it returns exactly `1` for two non-empty strings
that are equal after lowercasing and trimming (single-character
strings included); it returns `0` when either argument is the empty
string (so `similarity "" "" = 0`) — but two non-empty whitespace-only
arguments, which become empty after trimming, normalize to the same
empty string and yield `1`, not `0`. -/
theorem similarity_properties :
    (∀ a b : String, similarity a b = similarity b a)
    ∧ (∀ a b : String, 0 ≤ similarity a b ∧ similarity a b ≤ 1)
    ∧ (∀ a b : String, a ≠ "" → b ≠ "" →
        jsTrim (jsToLower a) = jsTrim (jsToLower b) → similarity a b = 1)
    ∧ (∀ a b : String, (a = "" ∨ b = "") → similarity a b = 0) :=
  ⟨similarity_comm, similarity_nonneg_le_one, similarity_self_normalized,
   similarity_empty_arg⟩

/-- Witness for `similarity_properties` at concrete inputs. -/
theorem similarity_properties_witness :
    similarity "Test " "test" = 1 ∧ similarity "" "" = 0 := by
  constructor
  · exact similarity_properties.2.2.1 "Test " "test" (by decide) (by decide) (by decide)
  · exact similarity_properties.2.2.2 "" "" (Or.inl rfl)

/-! ## Merge provenance (claim C2) -/

/-- Counterexample to claim C2: merging an identical copy of a record
a second time appends a second source link for the same source, so the
per-source link count rises from 1 to 2 and the uniqueness invariant
fails. -/
theorem merge_provenance_cex :
    linkCountFor (mergePapers recFirst recAgain) (some "arxiv") = 1
    ∧ linkCountFor (mergePapers (mergePapers recFirst recAgain) recAgain) (some "arxiv") = 2 := by
  decide

/-- Claim C2 (amended): `mergePapers` appends a source link for the
incoming record unconditionally: for any existing paper that already
carries a `_source_links` array, re-merging any record `r` (also an
identical copy) extends that array with `r`'s link and increases the
link count for `r.source` by exactly one, so duplicate sources can
occur. -/
theorem merge_appends_link (existing r : Paper) (ls : List SourceLink)
    (h : existing.srcLinks = some ls) :
    (mergePapers existing r).srcLinks = some (ls ++ [mkLink r])
    ∧ linkCountFor (mergePapers existing r) r.source = linkCountFor existing r.source + 1 := by
  constructor
  · simp [mergePapers, h]
  · simp [linkCountFor, mergePapers, h, List.filter_append, mkLink]

/-- Witness for `merge_appends_link`: the double merge of the
counterexample. -/
theorem merge_appends_link_witness :
    (mergePapers (mergePapers recFirst recAgain) recAgain).srcLinks
        = some ([mkLink recFirst, mkLink recAgain] ++ [mkLink recAgain])
    ∧ linkCountFor (mergePapers (mergePapers recFirst recAgain) recAgain) recAgain.source
        = linkCountFor (mergePapers recFirst recAgain) recAgain.source + 1 :=
  merge_appends_link (mergePapers recFirst recAgain) recAgain
    [mkLink recFirst, mkLink recAgain] (by decide)

/-! ## Merged open-access flag (claim C7) -/

/-- Counterexample to claim C7: the incoming record reports open
access but the merged paper reports closed access — the merge keeps
the existing record's flag. -/
theorem merge_open_access_cex :
    recOpenAccess.is_open_access = true
    ∧ (mergePapers recClosedAccess recOpenAccess).is_open_access = false := by
  decide

/-- Claim C7 (amended): the merged paper's `is_open_access` flag
always equals the existing record's flag (the object spread is never
overridden); the incoming record's open-access status is recorded only
on the source link appended for it. -/
theorem merge_open_access_from_existing (existing newPaper : Paper) :
    (mergePapers existing newPaper).is_open_access = existing.is_open_access
    ∧ ((mergePapers existing newPaper).srcLinks.getD []).getLast? = some (mkLink newPaper)
    ∧ (mkLink newPaper).is_open_access = newPaper.is_open_access := by
  refine ⟨rfl, ?_, rfl⟩
  simp [mergePapers]

/-! ## Lexicographic comparison lemmas for the relevance sort -/

theorem lexOrd_lt_iff : ∀ xs ys : List Char,
    lexOrd xs ys = Ordering.lt ↔ List.Lex (· < ·) xs ys := by
  intro xs
  induction xs with
  | nil =>
    intro ys
    cases ys with
    | nil =>
      constructor
      · intro h; exact absurd h (by decide)
      · intro h; exact absurd h (List.Lex.not_nil_right _ _)
    | cons b bs => exact ⟨fun _ => List.Lex.nil, fun _ => rfl⟩
  | cons a as ih =>
    intro ys
    cases ys with
    | nil =>
      constructor
      · intro h; simp [lexOrd] at h
      · intro h; exact absurd h (List.Lex.not_nil_right _ _)
    | cons b bs =>
      constructor
      · intro h
        unfold lexOrd at h
        by_cases hab : a < b
        · exact List.Lex.rel hab
        · rw [if_neg hab] at h
          by_cases hba : b < a
          · rw [if_pos hba] at h; exact absurd h (by decide)
          · rw [if_neg hba] at h
            have hEq : a = b := le_antisymm (not_lt.mp hba) (not_lt.mp hab)
            subst hEq
            exact List.Lex.cons ((ih bs).mp h)
      · intro h
        cases h with
        | rel hr => unfold lexOrd; rw [if_pos hr]
        | cons ht =>
          unfold lexOrd
          rw [if_neg (lt_irrefl a), if_neg (lt_irrefl a)]
          exact (ih bs).mpr ht

theorem lexOrd_eq_iff : ∀ xs ys : List Char,
    lexOrd xs ys = Ordering.eq ↔ xs = ys := by
  intro xs
  induction xs with
  | nil =>
    intro ys
    cases ys with
    | nil => exact ⟨fun _ => rfl, fun _ => rfl⟩
    | cons b bs =>
      constructor
      · intro h; simp [lexOrd] at h
      · intro h; exact absurd h (by simp)
  | cons a as ih =>
    intro ys
    cases ys with
    | nil =>
      constructor
      · intro h; simp [lexOrd] at h
      · intro h; exact absurd h (by simp)
    | cons b bs =>
      constructor
      · intro h
        unfold lexOrd at h
        by_cases hab : a < b
        · rw [if_pos hab] at h; exact absurd h (by decide)
        · rw [if_neg hab] at h
          by_cases hba : b < a
          · rw [if_pos hba] at h; exact absurd h (by decide)
          · rw [if_neg hba] at h
            have hEq : a = b := le_antisymm (not_lt.mp hba) (not_lt.mp hab)
            subst hEq
            rw [(ih bs).mp h]
      · intro h
        cases h
        unfold lexOrd
        rw [if_neg (lt_irrefl a), if_neg (lt_irrefl a)]
        exact (ih as).mpr rfl

theorem lexOrd_swap : ∀ xs ys : List Char,
    lexOrd ys xs = (lexOrd xs ys).swap := by
  intro xs
  induction xs with
  | nil =>
    intro ys
    cases ys with
    | nil => rfl
    | cons b bs => rfl
  | cons a as ih =>
    intro ys
    cases ys with
    | nil => rfl
    | cons b bs =>
      unfold lexOrd
      by_cases hab : a < b
      · simp [hab, lt_asymm hab, Ordering.swap]
      · by_cases hba : b < a
        · simp [hab, hba, Ordering.swap]
        · simp only [if_neg hab, if_neg hba]
          exact ih bs

theorem lexOrd_gt_iff (xs ys : List Char) :
    lexOrd xs ys = Ordering.gt ↔ List.Lex (· < ·) ys xs := by
  rw [← lexOrd_lt_iff]
  rw [lexOrd_swap xs ys]
  cases lexOrd xs ys <;> simp [Ordering.swap]

theorem ordQ_neg_iff (o : Ordering) : ordQ o < 0 ↔ o = Ordering.lt := by
  cases o <;> simp [ordQ]

theorem ordQ_zero_iff (o : Ordering) : ordQ o = 0 ↔ o = Ordering.eq := by
  cases o <;> simp [ordQ]

theorem ordQ_pos_iff (o : Ordering) : 0 < ordQ o ↔ o = Ordering.gt := by
  cases o <;> simp [ordQ]

/-- Claim C8: when two papers' relevance scores differ by at most 0.1,
the relevance comparator of `sortByRelevance` orders them purely by
ascending lowercased title (lexicographically); the comparator never
consults citation counts (it is invariant under any change of the
`citation_count` fields); and in the explicit `citations-desc` sort
mode the comparator orders by citation count alone. -/
theorem relevance_sort_tiebreak :
    (∀ a b : Paper,
        |(b.relevance_score.getD 0) - (a.relevance_score.getD 0)| ≤ 1/10 →
        ((relCmp a b < 0 ↔
            List.Lex (· < ·) (jsToLower (a.title.getD "")).data (jsToLower (b.title.getD "")).data)
         ∧ (relCmp a b = 0 ↔ jsToLower (a.title.getD "") = jsToLower (b.title.getD ""))
         ∧ (0 < relCmp a b ↔
            List.Lex (· < ·) (jsToLower (b.title.getD "")).data (jsToLower (a.title.getD "")).data)))
    ∧ (∀ a b : Paper, ∀ c1 c2 : Option Nat,
        relCmp { a with citation_count := c1 } { b with citation_count := c2 } = relCmp a b)
    ∧ (∀ a b : Paper, sortSearchResultsCmp "citations-desc" a b < 0 ↔ ccOf b < ccOf a) := by
  refine ⟨?_, ?_, ?_⟩
  · intro a b h
    have hng : ¬((1:ℚ)/10 < |b.relevance_score.getD 0 - a.relevance_score.getD 0|) := not_lt.mpr h
    unfold relCmp
    rw [if_neg hng]
    refine ⟨?_, ?_, ?_⟩
    · rw [ordQ_neg_iff, lexOrd_lt_iff]
    · rw [ordQ_zero_iff, lexOrd_eq_iff]
      constructor
      · intro hd; exact String.ext hd
      · intro hs; rw [hs]
    · rw [ordQ_pos_iff, lexOrd_gt_iff]
  · intro a b c1 c2; rfl
  · intro a b
    unfold sortSearchResultsCmp
    rw [if_pos rfl]
    rw [sub_neg]
    exact Nat.cast_lt

/-- Witness for `relevance_sort_tiebreak`: two concrete papers with
equal relevance scores are ordered by title, and the citation mode
orders by citations. -/
theorem relevance_sort_tiebreak_witness :
    relCmp paperAb paperZu < 0
    ∧ (sortSearchResultsCmp "citations-desc" paperAb paperZu < 0 ↔ ccOf paperZu < ccOf paperAb) := by
  constructor
  · have h := (relevance_sort_tiebreak.1 paperAb paperZu
        (by norm_num [paperAb, paperZu, basePaper])).1
    exact h.mpr (List.Lex.rel (by decide))
  · exact relevance_sort_tiebreak.2.2 paperAb paperZu

/-! ## Range of the BM25 score (claim C3) -/

theorem jsMin_eq_min (a b : ℚ) : jsMin a b = min a b := (min_def a b).symm

theorem jsMax_eq_max (a b : ℚ) : jsMax a b = max a b := (max_def a b).symm

theorem clamp_mem (x : ℚ) : 0 ≤ jsMax 0 (jsMin 100 x) ∧ jsMax 0 (jsMin 100 x) ≤ 100 := by
  rw [jsMax_eq_max, jsMin_eq_min]
  exact ⟨le_max_left 0 _, max_le (by norm_num) (min_le_left _ _)⟩

theorem boostCap_mem {x k : ℚ} (hx : 0 ≤ x) (hk : 0 ≤ k) :
    0 ≤ jsMin 100 (x + k) ∧ jsMin 100 (x + k) ≤ 100 := by
  rw [jsMin_eq_min]
  exact ⟨le_min (by norm_num) (by linarith), min_le_left _ _⟩

theorem normalizedBase_mem (log : ℚ → ℚ) (n : Nat) (raw : ℚ) :
    0 ≤ normalizedBase log n raw ∧ normalizedBase log n raw ≤ 100 := by
  unfold normalizedBase
  split_ifs with h
  · exact clamp_mem _
  · norm_num

theorem titleBoost_mem (t q : String) {ns : ℚ} (h0 : 0 ≤ ns) (h1 : ns ≤ 100) :
    0 ≤ titleBoost t q ns ∧ titleBoost t q ns ≤ 100 := by
  unfold titleBoost
  split_ifs
  · exact boostCap_mem h0 (by norm_num)
  · exact boostCap_mem h0 (by norm_num)
  · exact boostCap_mem h0 (by norm_num)
  · exact boostCap_mem h0 (by norm_num)
  · exact boostCap_mem h0 (by norm_num)
  · exact ⟨h0, h1⟩

theorem abstractBoost_mem (t a q : String) {ns : ℚ} (h0 : 0 ≤ ns) (h1 : ns ≤ 100) :
    0 ≤ abstractBoost t a q ns ∧ abstractBoost t a q ns ≤ 100 := by
  unfold abstractBoost
  split_ifs
  · exact boostCap_mem h0 (by norm_num)
  · exact ⟨h0, h1⟩

theorem recency_factor_nonneg {cy : Int} {year : Option Int}
    (h : cy - year.getD 0 ≤ 1 ∧ 0 ≤ cy - year.getD 0) :
    (0 : ℚ) ≤ 20 * (1 - ((cy - year.getD 0 : Int) : ℚ)) := by
  have hle : ((cy - year.getD 0 : Int) : ℚ) ≤ 1 := by exact_mod_cast h.1
  linarith

theorem recencyBoost_mem (cy : Int) (year : Option Int) (ts : Bool) {ns : ℚ}
    (h0 : 0 ≤ ns) (h1 : ns ≤ 100) :
    0 ≤ recencyBoost cy year ts ns ∧ recencyBoost cy year ts ns ≤ 100 := by
  unfold recencyBoost
  split_ifs with hts hy
  · exact boostCap_mem h0 (recency_factor_nonneg hy)
  · exact ⟨h0, h1⟩
  · exact ⟨h0, h1⟩

/-- Claim C3: for every document, query, corpus state, logarithm and
average length, `BM25Scorer.score` returns a value in `[0, 100]`, and
when the query tokenizes to the empty list (in particular the empty
string) it returns exactly `50`. -/
theorem score_range_and_empty_query (log : ℚ → ℚ) (currentYear : Int) (st : ScorerStats)
    (paper : Paper) (query : String) (avgLength : ℚ) :
    (0 ≤ score log currentYear st paper query avgLength
      ∧ score log currentYear st paper query avgLength ≤ 100)
    ∧ (tokenize query = [] → score log currentYear st paper query avgLength = 50) := by
  constructor
  · unfold score
    split_ifs with h
    · norm_num
    · have hb := normalizedBase_mem log (tokenize query).length
        (rawBM25 log st (tokenize query) (capitalizedStems query)
          (tokenize (getPaperText paper)) avgLength)
      have ht := titleBoost_mem (jsToLower (paper.title.getD ""))
        (removeQuotesLower query) hb.1 hb.2
      have ha := abstractBoost_mem (jsToLower (paper.title.getD ""))
        (jsToLower (paper.abstract.getD "")) (removeQuotesLower query) ht.1 ht.2
      exact recencyBoost_mem currentYear paper.year (timeSensitiveRe query) ha.1 ha.2
  · intro h
    unfold score
    rw [if_pos (by rw [h]; rfl)]

/-- Witness for `score_range_and_empty_query`: the empty query against
a concrete record. -/
theorem score_range_and_empty_query_witness :
    (0 ≤ score logStub 2026 emptyStats recArxiv "" 100
      ∧ score logStub 2026 emptyStats recArxiv "" 100 ≤ 100)
    ∧ score logStub 2026 emptyStats recArxiv "" 100 = 50 := by
  have h := score_range_and_empty_query logStub 2026 emptyStats recArxiv "" 100
  exact ⟨h.1, h.2 (by decide)⟩

/-! ## Title boost versus abstract boost (claim C4) -/

/-- A document whose lowered title contains the normalized query
scores exactly 100 whenever the query tokenizes non-empty: the `+100`
boost saturates the cap, the abstract boost is skipped, and the
recency boost cannot raise a score already at the cap. -/
theorem score_eq_100_of_title_contains (log : ℚ → ℚ) (currentYear : Int) (st : ScorerStats)
    (paper : Paper) (query : String) (avgLength : ℚ)
    (hq : tokenize query ≠ [])
    (ht : containsSub (jsToLower (paper.title.getD "")) (removeQuotesLower query) = true) :
    score log currentYear st paper query avgLength = 100 := by
  have hq' : ¬((tokenize query).length = 0) := by
    intro hc
    exact hq (List.length_eq_zero.mp hc)
  unfold score
  rw [if_neg hq']
  have hb := normalizedBase_mem log (tokenize query).length
    (rawBM25 log st (tokenize query) (capitalizedStems query)
      (tokenize (getPaperText paper)) avgLength)
  have h100 : titleBoost (jsToLower (paper.title.getD "")) (removeQuotesLower query)
      (normalizedBase log (tokenize query).length
        (rawBM25 log st (tokenize query) (capitalizedStems query)
          (tokenize (getPaperText paper)) avgLength)) = 100 := by
    unfold titleBoost
    rw [if_pos ht, jsMin_eq_min]
    have := hb.1
    exact min_eq_left (by linarith)
  rw [h100]
  have habs : abstractBoost (jsToLower (paper.title.getD ""))
      (jsToLower (paper.abstract.getD "")) (removeQuotesLower query) 100 = 100 := by
    unfold abstractBoost
    rw [if_neg (by simp [ht])]
  rw [habs]
  unfold recencyBoost
  split_ifs with hts hy
  · rw [jsMin_eq_min]
    exact min_eq_left (by have := recency_factor_nonneg hy; linarith)
  · rfl
  · rfl

/-- The recency block never moves a score off the 100 cap. -/
theorem recencyBoost_at_cap (cy : Int) (year : Option Int) (ts : Bool) :
    recencyBoost cy year ts 100 = 100 := by
  unfold recencyBoost
  split_ifs with hts hy
  · rw [jsMin_eq_min]
    exact min_eq_left (by have := recency_factor_nonneg hy; linarith)
  · rfl
  · rfl

/-- A document whose title misses the verbatim query but contains every
query word, and whose abstract contains the verbatim query, also
scores exactly 100: the `+80` coverage boost plus the `+40` abstract
boost saturate the cap. -/
theorem score_eq_100_of_full_cover_and_abstract (log : ℚ → ℚ) (currentYear : Int)
    (st : ScorerStats) (paper : Paper) (query : String) (avgLength : ℚ)
    (hq : tokenize query ≠ [])
    (ht : containsSub (jsToLower (paper.title.getD "")) (removeQuotesLower query) = false)
    (hc : 1 ≤ titleCoverageOf (jsToLower (paper.title.getD "")) (removeQuotesLower query))
    (ha : containsSub (jsToLower (paper.abstract.getD "")) (removeQuotesLower query) = true) :
    score log currentYear st paper query avgLength = 100 := by
  have hq' : ¬((tokenize query).length = 0) := by
    intro hcℓ
    exact hq (List.length_eq_zero.mp hcℓ)
  unfold score
  rw [if_neg hq']
  have hb := normalizedBase_mem log (tokenize query).length
    (rawBM25 log st (tokenize query) (capitalizedStems query)
      (tokenize (getPaperText paper)) avgLength)
  have htb : titleBoost (jsToLower (paper.title.getD "")) (removeQuotesLower query)
      (normalizedBase log (tokenize query).length
        (rawBM25 log st (tokenize query) (capitalizedStems query)
          (tokenize (getPaperText paper)) avgLength)) =
      jsMin 100
        (normalizedBase log (tokenize query).length
          (rawBM25 log st (tokenize query) (capitalizedStems query)
            (tokenize (getPaperText paper)) avgLength) + 80) := by
    unfold titleBoost
    rw [if_neg (by simp [ht]), if_pos hc]
  rw [htb]
  have habs : abstractBoost (jsToLower (paper.title.getD ""))
      (jsToLower (paper.abstract.getD "")) (removeQuotesLower query)
      (jsMin 100
        (normalizedBase log (tokenize query).length
          (rawBM25 log st (tokenize query) (capitalizedStems query)
            (tokenize (getPaperText paper)) avgLength) + 80)) = 100 := by
    unfold abstractBoost
    rw [if_pos ⟨by simp [ht], ha⟩, jsMin_eq_min, jsMin_eq_min]
    have h80 : (80 : ℚ) ≤ min 100
        (normalizedBase log (tokenize query).length
          (rawBM25 log st (tokenize query) (capitalizedStems query)
            (tokenize (getPaperText paper)) avgLength) + 80) :=
      le_min (by norm_num) (by have := hb.1; linarith)
    exact min_eq_left (by linarith)
  rw [habs]
  exact recencyBoost_at_cap currentYear paper.year (timeSensitiveRe query)

/-- Counterexample to claim C4: for the query `machine learning`, a
document with the verbatim query in the title and an otherwise
identical document with the query only in the abstract (title with the
words swapped) both score exactly 100 — the additive boosts saturate
the cap, so the title document does not score strictly higher. -/
theorem title_vs_abstract_boost_cex :
    containsSub (jsToLower (docTitleMatch.title.getD ""))
        (removeQuotesLower "machine learning") = true
    ∧ containsSub (jsToLower (docAbstractMatch.title.getD ""))
        (removeQuotesLower "machine learning") = false
    ∧ containsSub (jsToLower (docAbstractMatch.abstract.getD ""))
        (removeQuotesLower "machine learning") = true
    ∧ ¬(score logStub 2026 emptyStats docAbstractMatch "machine learning" 100 <
        score logStub 2026 emptyStats docTitleMatch "machine learning" 100) := by
  refine ⟨by decide, by decide, by decide, ?_⟩
  have hA : score logStub 2026 emptyStats docTitleMatch "machine learning" 100 = 100 :=
    score_eq_100_of_title_contains logStub 2026 emptyStats docTitleMatch
      "machine learning" 100 (by decide) (by decide)
  have hB : score logStub 2026 emptyStats docAbstractMatch "machine learning" 100 = 100 := by
    apply score_eq_100_of_full_cover_and_abstract logStub 2026 emptyStats docAbstractMatch
      "machine learning" 100 (by decide) (by decide) ?_ (by decide)
    have h1 : (coverageWords (removeQuotesLower "machine learning")).length = 2 := by decide
    have h2 : ((coverageWords (removeQuotesLower "machine learning")).filter
        (fun w => containsSub (jsToLower (docAbstractMatch.title.getD "")) w)).length = 2 := by
      decide
    unfold titleCoverageOf
    rw [h1, h2]
    norm_num
  rw [hA, hB]
  exact lt_irrefl 100

/-- Claim C4 (amended): for every query with non-empty tokenization, a
document whose title contains the normalized query verbatim scores
exactly 100 — the maximum — hence at least as high as every other
document, and strictly higher than any document scoring below 100; but
not strictly higher in general, since an abstract-only document can
also saturate the 100 cap. -/
theorem title_match_scores_maximal (log : ℚ → ℚ) (currentYear : Int) (st : ScorerStats)
    (docTitle docOther : Paper) (query : String) (avgLength : ℚ)
    (hq : tokenize query ≠ [])
    (ht : containsSub (jsToLower (docTitle.title.getD "")) (removeQuotesLower query) = true) :
    score log currentYear st docTitle query avgLength = 100
    ∧ score log currentYear st docOther query avgLength ≤
        score log currentYear st docTitle query avgLength
    ∧ (score log currentYear st docOther query avgLength < 100 →
        score log currentYear st docOther query avgLength <
          score log currentYear st docTitle query avgLength) := by
  have hA := score_eq_100_of_title_contains log currentYear st docTitle query avgLength hq ht
  have hB := (score_range_and_empty_query log currentYear st docOther query avgLength).1.2
  refine ⟨hA, ?_, ?_⟩
  · rw [hA]; exact hB
  · intro hlt; rw [hA]; exact hlt

/-- Witness for `title_match_scores_maximal` at the concrete records
of the counterexample. -/
theorem title_match_scores_maximal_witness :
    score logStub 2026 emptyStats docTitleMatch "machine learning" 100 = 100
    ∧ score logStub 2026 emptyStats docAbstractMatch "machine learning" 100 ≤
        score logStub 2026 emptyStats docTitleMatch "machine learning" 100 := by
  have h := title_match_scores_maximal logStub 2026 emptyStats docTitleMatch docAbstractMatch
    "machine learning" 100 (by decide) (by decide)
  exact ⟨h.1, h.2.1⟩

/-! ## Step lemmas for the streaming dedup of `searchWithClient` -/

theorem alGet_nil {α : Type} (k : String) : alGet ([] : List (String × α)) k = none := rfl

theorem alGet_cons_self {α : Type} (k : String) (v : α) (rest : List (String × α)) :
    alGet ((k, v) :: rest) k = some v := by
  simp [alGet]

theorem alSet_nil {α : Type} (k : String) (v : α) :
    alSet ([] : List (String × α)) k v = [(k, v)] := rfl

theorem alSet_singleton_self {α : Type} (k : String) (v w : α) :
    alSet [(k, v)] k w = [(k, w)] := by
  simp [alSet, alHas]

theorem fastPath_absent (st : DedupState) (paper : Paper) (d : String)
    (hd : paper.doi = some d) (hne : d ≠ "")
    (hb : mightContain st.bloom (normDoi d) = false) :
    fastPath st paper = (false, none, bloomAdd st.bloom (normDoi d)) := by
  unfold fastPath
  rw [hd]
  simp only [if_pos hne, hb]
  rw [if_pos (by simp)]

theorem fastPath_hit (st : DedupState) (paper : Paper) (d : String) (k : String)
    (hd : paper.doi = some d) (hne : d ≠ "")
    (hb : mightContain st.bloom (normDoi d) = true)
    (hi : alGet st.doiIndex (normDoi d) = some k) :
    fastPath st paper = (true, some k, st.bloom) := by
  unfold fastPath
  rw [hd]
  simp only [if_pos hne, hb]
  rw [if_neg (by simp), hi]

theorem slowPath_found (st : DedupState) (paper : Paper) (mk0 : Option String)
    (b : BloomState) :
    slowPath st paper (true, mk0, b) = (true, mk0, b) := by
  simp [slowPath]

theorem slowPath_no_match (st : DedupState) (paper : Paper) (mk0 : Option String)
    (b : BloomState)
    (hf : st.papersByKey.find? (fun e => areDuplicates e.2 paper) = none) :
    slowPath st paper (false, mk0, b) = (false, none, b) := by
  simp [slowPath, hf]

theorem slowPath_match (st : DedupState) (paper : Paper) (mk0 : Option String)
    (b : BloomState) (e : String × Paper)
    (hf : st.papersByKey.find? (fun e => areDuplicates e.2 paper) = some e) :
    slowPath st paper (false, mk0, b) = (true, some e.1, b) := by
  simp [slowPath, hf]

theorem commitRecord_merge (st : DedupState) (paper existing : Paper) (k : String)
    (b : BloomState) (hg : alGet st.papersByKey k = some existing) :
    commitRecord st paper (true, some k, b) =
      { st with
        papersByKey := alSet st.papersByKey k (mergePapers existing paper)
        bloom := b } := by
  unfold commitRecord
  dsimp only
  rw [if_pos (by simp)]
  simp only [Option.getD_some]
  rw [hg]

theorem commitRecord_new_doi (st : DedupState) (paper : Paper) (d : String)
    (b : BloomState) (hd : paper.doi = some d) (hne : d ≠ "") :
    commitRecord st paper (false, none, b) =
      { papersByKey := alSet st.papersByKey (getPaperKey paper) paper
        doiIndex := alSet st.doiIndex (normDoi d) (getPaperKey paper)
        bloom := bloomAdd b (normDoi d) } := by
  unfold commitRecord
  dsimp only
  rw [if_neg (by simp), hd]
  dsimp only
  rw [if_pos hne]

theorem commitRecord_new_nodoi (st : DedupState) (paper : Paper) (b : BloomState)
    (hd : paper.doi = none) :
    commitRecord st paper (false, none, b) =
      { st with
        papersByKey := alSet st.papersByKey (getPaperKey paper) paper
        bloom := b } := by
  unfold commitRecord
  dsimp only
  rw [if_neg (by simp), hd]

/-- A record with a truthy DOI that the bloom filter reports definitely
absent and that fuzzy-matches no existing record is committed as new:
stored under its paper key, DOI-indexed, and inserted into the bloom
filter (once by the fast path, once by the commit). -/
theorem processRecord_new_doi (st : DedupState) (paper : Paper) (d : String)
    (hd : paper.doi = some d) (hne : d ≠ "")
    (hb : mightContain st.bloom (normDoi d) = false)
    (hf : st.papersByKey.find? (fun e => areDuplicates e.2 paper) = none) :
    processRecord st paper =
      { papersByKey := alSet st.papersByKey (getPaperKey paper) paper
        doiIndex := alSet st.doiIndex (normDoi d) (getPaperKey paper)
        bloom := bloomAdd (bloomAdd st.bloom (normDoi d)) (normDoi d) } := by
  unfold processRecord
  rw [fastPath_absent st paper d hd hne hb,
      slowPath_no_match st paper none (bloomAdd st.bloom (normDoi d)) hf,
      commitRecord_new_doi st paper d (bloomAdd st.bloom (normDoi d)) hd hne]

/-- A record with a truthy DOI that the bloom filter reports possibly
present and that the DOI index confirms is merged into the indexed
paper; the index and the bloom filter are left unchanged. -/
theorem processRecord_merge_doi (st : DedupState) (paper existing : Paper)
    (d k : String)
    (hd : paper.doi = some d) (hne : d ≠ "")
    (hb : mightContain st.bloom (normDoi d) = true)
    (hi : alGet st.doiIndex (normDoi d) = some k)
    (hg : alGet st.papersByKey k = some existing) :
    processRecord st paper =
      { st with papersByKey := alSet st.papersByKey k (mergePapers existing paper) } := by
  unfold processRecord
  rw [fastPath_hit st paper d k hd hne hb hi,
      slowPath_found st paper (some k) st.bloom,
      commitRecord_merge st paper existing k st.bloom hg]

/-- A record with a truthy DOI that the bloom filter reports definitely
absent but that fuzzy-matches an existing record is merged into that
record; the DOI index is not updated (only the bloom filter keeps the
DOI). -/
theorem processRecord_fuzzy_merge (st : DedupState) (paper existing : Paper)
    (d : String) (e : String × Paper)
    (hd : paper.doi = some d) (hne : d ≠ "")
    (hb : mightContain st.bloom (normDoi d) = false)
    (hf : st.papersByKey.find? (fun x => areDuplicates x.2 paper) = some e)
    (hg : alGet st.papersByKey e.1 = some existing) :
    processRecord st paper =
      { st with
        papersByKey := alSet st.papersByKey e.1 (mergePapers existing paper)
        bloom := bloomAdd st.bloom (normDoi d) } := by
  unfold processRecord
  rw [fastPath_absent st paper d hd hne hb,
      slowPath_match st paper none (bloomAdd st.bloom (normDoi d)) e hf,
      commitRecord_merge st paper existing e.1 (bloomAdd st.bloom (normDoi d)) hg]

/-- `ccOf` of a merge is the maximum of the two citation counts. -/
theorem ccOf_mergePapers (a b : Paper) : ccOf (mergePapers a b) = max (ccOf a) (ccOf b) := rfl

/-! ## Claim C1: three same-DOI records merge to one record with the
maximum citation count -/

/-- Claim C1: merging three records that share the same normalized DOI
into an initially empty result set leaves exactly one paper record,
whose citation count is the maximum — not the sum — of the three
inputs' citation counts. -/
theorem three_same_doi_merge_to_max (r1 r2 r3 : Paper) (d1 d2 d3 : String)
    (h1 : r1.doi = some d1) (h1n : d1 ≠ "")
    (h2 : r2.doi = some d2) (h2n : d2 ≠ "")
    (h3 : r3.doi = some d3) (h3n : d3 ≠ "")
    (e12 : normDoi d1 = normDoi d2) (e13 : normDoi d1 = normDoi d3) :
    (processRecord (processRecord (processRecord emptyDedupState r1) r2) r3).papersByKey
      = [(getPaperKey r1, mergePapers (mergePapers r1 r2) r3)]
    ∧ (processRecord (processRecord (processRecord emptyDedupState r1) r2) r3).papersByKey.length
      = 1
    ∧ ((processRecord (processRecord (processRecord emptyDedupState r1) r2) r3).papersByKey.head?.map
        (fun e => ccOf e.2)) = some (max (ccOf r1) (max (ccOf r2) (ccOf r3))) := by
  have hst1 : processRecord emptyDedupState r1 =
      { papersByKey := [(getPaperKey r1, r1)]
        doiIndex := [(normDoi d1, getPaperKey r1)]
        bloom := bloomAdd (bloomAdd (freshBloom 10000) (normDoi d1)) (normDoi d1) } := by
    rw [processRecord_new_doi emptyDedupState r1 d1 h1 h1n
        (mightContain_fresh 10000 (normDoi d1)) rfl]
    rfl
  have hb2 : mightContain (bloomAdd (bloomAdd (freshBloom 10000) (normDoi d1)) (normDoi d1))
      (normDoi d2) = true := by
    rw [← e12]
    exact mightContain_bloomAdd_self _ _
  have hst2 : processRecord (processRecord emptyDedupState r1) r2 =
      { papersByKey := [(getPaperKey r1, mergePapers r1 r2)]
        doiIndex := [(normDoi d1, getPaperKey r1)]
        bloom := bloomAdd (bloomAdd (freshBloom 10000) (normDoi d1)) (normDoi d1) } := by
    rw [hst1]
    rw [processRecord_merge_doi _ r2 r1 d2 (getPaperKey r1) h2 h2n hb2
        (by rw [← e12]; exact alGet_cons_self _ _ _)
        (alGet_cons_self _ _ _)]
    rw [alSet_singleton_self]
  have hb3 : mightContain (bloomAdd (bloomAdd (freshBloom 10000) (normDoi d1)) (normDoi d1))
      (normDoi d3) = true := by
    rw [← e13]
    exact mightContain_bloomAdd_self _ _
  have hst3 : processRecord (processRecord (processRecord emptyDedupState r1) r2) r3 =
      { papersByKey := [(getPaperKey r1, mergePapers (mergePapers r1 r2) r3)]
        doiIndex := [(normDoi d1, getPaperKey r1)]
        bloom := bloomAdd (bloomAdd (freshBloom 10000) (normDoi d1)) (normDoi d1) } := by
    rw [hst2]
    rw [processRecord_merge_doi _ r3 (mergePapers r1 r2) d3 (getPaperKey r1) h3 h3n hb3
        (by rw [← e13]; exact alGet_cons_self _ _ _)
        (alGet_cons_self _ _ _)]
    rw [alSet_singleton_self]
  rw [hst3]
  refine ⟨rfl, rfl, ?_⟩
  simp only [List.head?_cons, Option.map_some', ccOf_mergePapers]
  rw [max_assoc]

/-- Witness for `three_same_doi_merge_to_max`: the "machine learning"
scenario with DOIs `10.1/ABC`, `10.1/abc`, `10.1/abc` and citation
counts 10, 30 and 20 — the merged count is 30, not 60. -/
theorem three_same_doi_merge_to_max_witness :
    (processRecord (processRecord (processRecord emptyDedupState recArxiv) recCrossref)
        recOpenalex).papersByKey.length = 1
    ∧ ((processRecord (processRecord (processRecord emptyDedupState recArxiv) recCrossref)
        recOpenalex).papersByKey.head?.map (fun e => ccOf e.2)) = some 30 := by
  have h := three_same_doi_merge_to_max recArxiv recCrossref recOpenalex
    "10.1/ABC" "10.1/abc" "10.1/abc" rfl (by decide) rfl (by decide) rfl (by decide)
    (by decide) (by decide)
  refine ⟨h.2.1, ?_⟩
  rw [h.2.2]
  rfl

/-! ## Claim C6: "definitely absent" records and the fuzzy fallback -/

theorem fastPath_no_doi (st : DedupState) (paper : Paper) (hd : paper.doi = none) :
    fastPath st paper = (false, none, st.bloom) := by
  unfold fastPath
  rw [hd]

/-- A record without a DOI and without a fuzzy match is committed as a
new entry keyed by its paper key; the DOI index and the bloom filter
are untouched. -/
theorem processRecord_new_nodoi (st : DedupState) (paper : Paper)
    (hd : paper.doi = none)
    (hf : st.papersByKey.find? (fun e => areDuplicates e.2 paper) = none) :
    processRecord st paper =
      { st with papersByKey := alSet st.papersByKey (getPaperKey paper) paper } := by
  unfold processRecord
  rw [fastPath_no_doi st paper hd,
      slowPath_no_match st paper none st.bloom hf,
      commitRecord_new_nodoi st paper st.bloom hd]

/-- Counterexample to claim C6: `recFreshDoi` carries a truthy DOI
that the bloom filter reports definitely absent, yet it is not treated
as new: the fuzzy title comparison still runs, finds the DOI-less
`recNoDoi` with an identical normalized title, and merges into it —
the paper count stays 1 and the DOI is never added to the exact
index. -/
theorem bloom_absent_still_fuzzy_cex :
    truthyS recFreshDoi.doi = true
    ∧ mightContain (processRecord emptyDedupState recNoDoi).bloom (normDoi "10.1/x") = false
    ∧ (processRecord emptyDedupState recNoDoi).papersByKey.length = 1
    ∧ (processRecord (processRecord emptyDedupState recNoDoi) recFreshDoi).papersByKey.length = 1
    ∧ (processRecord (processRecord emptyDedupState recNoDoi) recFreshDoi).doiIndex = [] := by
  decide

/-- Claim C6 (amended): when an incoming record has a truthy DOI that
the membership filter reports definitely absent, the DOI is inserted
into the filter and the exact-index lookup is skipped, but the O(n)
fuzzy title comparison against the existing records is still executed:
the record is added to the exact index and stored as new only when no
existing record fuzzy-matches; when one does, the record is merged
into it and the DOI is not indexed. -/
theorem bloom_absent_behavior :
    (∀ (st : DedupState) (paper : Paper) (d : String),
        paper.doi = some d → d ≠ "" →
        mightContain st.bloom (normDoi d) = false →
        st.papersByKey.find? (fun e => areDuplicates e.2 paper) = none →
        processRecord st paper =
          { papersByKey := alSet st.papersByKey (getPaperKey paper) paper
            doiIndex := alSet st.doiIndex (normDoi d) (getPaperKey paper)
            bloom := bloomAdd (bloomAdd st.bloom (normDoi d)) (normDoi d) })
    ∧ (∀ (st : DedupState) (paper existing : Paper) (d : String) (e : String × Paper),
        paper.doi = some d → d ≠ "" →
        mightContain st.bloom (normDoi d) = false →
        st.papersByKey.find? (fun x => areDuplicates x.2 paper) = some e →
        alGet st.papersByKey e.1 = some existing →
        processRecord st paper =
          { st with
            papersByKey := alSet st.papersByKey e.1 (mergePapers existing paper)
            bloom := bloomAdd st.bloom (normDoi d) }) :=
  ⟨fun st paper d hd hne hb hf => processRecord_new_doi st paper d hd hne hb hf,
   fun st paper existing d e hd hne hb hf hg =>
     processRecord_fuzzy_merge st paper existing d e hd hne hb hf hg⟩

/-- Witness for `bloom_absent_behavior`: the fresh-DOI record against
the empty state is stored and indexed. -/
theorem bloom_absent_behavior_witness :
    processRecord emptyDedupState recFreshDoi =
      { papersByKey := alSet emptyDedupState.papersByKey (getPaperKey recFreshDoi) recFreshDoi
        doiIndex := alSet emptyDedupState.doiIndex (normDoi "10.1/x") (getPaperKey recFreshDoi)
        bloom := bloomAdd (bloomAdd emptyDedupState.bloom (normDoi "10.1/x")) (normDoi "10.1/x") } :=
  bloom_absent_behavior.1 emptyDedupState recFreshDoi "10.1/x" rfl (by decide)
    (mightContain_fresh 10000 (normDoi "10.1/x")) rfl

/-! ## Claim C9: orchestrator callback accounting -/

theorem runSettle_spec (total : Nat) :
    ∀ (srcs : List (String × Outcome)) (c s t : Nat),
    (runSettle total srcs c s t).2.1 = c + srcs.length
    ∧ (runSettle total srcs c s t).2.2.1 =
        s + srcs.countP (fun p => decide (0 < returnedCount p.2))
    ∧ (runSettle total srcs c s t).2.2.2 = t + (srcs.map (fun p => returnedCount p.2)).sum
    ∧ (runSettle total srcs c s t).1.countP isCompleteEvt = 0
    ∧ (runSettle total srcs c s t).1.filter isSourceCompleteEvt =
        srcs.mapIdx (fun i p =>
          CbEvent.sourceComplete p.1 (returnedCount p.2) (c + i + 1) total (errOf p.2)) := by
  intro srcs
  induction srcs with
  | nil =>
    intro c s t
    simp [runSettle]
  | cons hd rest ih =>
    intro c s t
    obtain ⟨name, o⟩ := hd
    have hfn : ∀ cc : Nat, (fun (i : Nat) (p : String × Outcome) =>
          CbEvent.sourceComplete p.1 (returnedCount p.2) (cc + (i + 1) + 1) total (errOf p.2))
        = (fun (i : Nat) (p : String × Outcome) =>
          CbEvent.sourceComplete p.1 (returnedCount p.2) ((cc + 1) + i + 1) total (errOf p.2)) := by
      intro cc
      funext i p
      have harith : cc + (i + 1) + 1 = (cc + 1) + i + 1 := by omega
      rw [harith]
    cases o with
    | ok papers =>
      by_cases hp : 0 < papers.length
      · have ihr := ih (c + 1) (s + 1) (t + papers.length)
        simp only [runSettle, if_pos hp]
        refine ⟨?_, ?_, ?_, ?_, ?_⟩
        · rw [ihr.1, List.length_cons]; omega
        · rw [ihr.2.1, List.countP_cons,
            if_pos (show (fun p => decide (0 < returnedCount p.2)) (name, Outcome.ok papers)
              = true by simp [returnedCount, hp])]
          omega
        · rw [ihr.2.2.1, List.map_cons, List.sum_cons]
          simp only [returnedCount]
          omega
        · rw [List.countP_append, List.countP_append, ihr.2.2.2.1]
          simp [isCompleteEvt]
        · rw [List.filter_append, List.filter_append, ihr.2.2.2.2, List.mapIdx_cons]
          simp only [hfn c]
          simp [isSourceCompleteEvt, returnedCount, errOf]
      · have ihr := ih (c + 1) s t
        simp only [runSettle, if_neg hp]
        refine ⟨?_, ?_, ?_, ?_, ?_⟩
        · rw [ihr.1, List.length_cons]; omega
        · rw [ihr.2.1, List.countP_cons,
            if_neg (show ¬((fun p => decide (0 < returnedCount p.2)) (name, Outcome.ok papers)
              = true) by simp [returnedCount, hp])]
          omega
        · rw [ihr.2.2.1, List.map_cons, List.sum_cons]
          simp only [returnedCount]
          omega
        · rw [List.countP_append, List.countP_append, ihr.2.2.2.1]
          simp [isCompleteEvt]
        · rw [List.filter_append, List.filter_append, ihr.2.2.2.2, List.mapIdx_cons]
          simp only [hfn c]
          simp [isSourceCompleteEvt, returnedCount, errOf]
    | err msg =>
      have ihr := ih (c + 1) s t
      simp only [runSettle]
      refine ⟨?_, ?_, ?_, ?_, ?_⟩
      · rw [ihr.1, List.length_cons]; omega
      · rw [ihr.2.1, List.countP_cons,
          if_neg (show ¬((fun p => decide (0 < returnedCount p.2)) (name, Outcome.err msg)
            = true) by simp [returnedCount])]
        omega
      · rw [ihr.2.2.1, List.map_cons, List.sum_cons]
        simp only [returnedCount]
        omega
      · rw [List.countP_cons, ihr.2.2.2.1]
        simp [isCompleteEvt]
      · rw [List.filter_cons]
        simp only [ihr.2.2.2.2, List.mapIdx_cons]
        simp only [hfn c]
        simp [isSourceCompleteEvt, returnedCount, errOf]

theorem starts_no_complete (sources : List (String × Outcome)) :
    (sources.map (fun p => CbEvent.sourceStart p.1)).countP isCompleteEvt = 0 := by
  rw [List.countP_eq_zero]
  intro a ha
  obtain ⟨p, _, hpa⟩ := List.mem_map.mp ha
  rw [← hpa]
  simp [isCompleteEvt]

theorem starts_no_sourceComplete (sources : List (String × Outcome)) :
    (sources.map (fun p => CbEvent.sourceStart p.1)).filter isSourceCompleteEvt = [] := by
  rw [List.filter_eq_nil_iff]
  intro a ha
  obtain ⟨p, _, hpa⟩ := List.mem_map.mp ha
  rw [← hpa]
  simp [isSourceCompleteEvt]

/-- Claim C9: for every set of source settlements (successes and
thrown errors alike) `searchWithCallbacks` completes normally and:
the summary carries the number of sources attempted, the number that
returned at least one record, the total record count and the elapsed
time; exactly one `onComplete` fires, as the last event, with that
summary; and every source — failing sources included — fires exactly
one `onSourceComplete` carrying its record count, the incremented
completion counter, the total, and the error message exactly for the
failing sources. -/
theorem orchestrator_callbacks (sources : List (String × Outcome)) (elapsedMs : ℚ) :
    (searchWithCallbacks sources elapsedMs).2 =
      { sources_searched := sources.length
        sources_successful := sources.countP (fun p => decide (0 < returnedCount p.2))
        total_results := (sources.map (fun p => returnedCount p.2)).sum
        elapsed_ms := elapsedMs }
    ∧ (searchWithCallbacks sources elapsedMs).1.countP isCompleteEvt = 1
    ∧ (searchWithCallbacks sources elapsedMs).1.getLast? =
        some (CbEvent.complete sources.length
          (sources.countP (fun p => decide (0 < returnedCount p.2)))
          ((sources.map (fun p => returnedCount p.2)).sum) elapsedMs)
    ∧ (searchWithCallbacks sources elapsedMs).1.filter isSourceCompleteEvt =
        sources.mapIdx (fun i p =>
          CbEvent.sourceComplete p.1 (returnedCount p.2) (i + 1) sources.length (errOf p.2)) := by
  have hs := runSettle_spec sources.length sources 0 0 0
  have hsucc : (runSettle sources.length sources 0 0 0).2.2.1 =
      sources.countP (fun p => decide (0 < returnedCount p.2)) := by
    rw [hs.2.1]; omega
  have htot : (runSettle sources.length sources 0 0 0).2.2.2 =
      (sources.map (fun p => returnedCount p.2)).sum := by
    rw [hs.2.2.1]; omega
  refine ⟨?_, ?_, ?_, ?_⟩
  · unfold searchWithCallbacks
    simp only [hsucc, htot]
  · unfold searchWithCallbacks
    simp only [List.countP_append, starts_no_complete, hs.2.2.2.1, List.countP_cons,
      List.countP_nil, isCompleteEvt]
    simp
  · unfold searchWithCallbacks
    simp only [List.getLast?_concat, hsucc, htot]
  · unfold searchWithCallbacks
    simp only [List.filter_append, starts_no_sourceComplete, hs.2.2.2.2, List.filter_cons,
      List.filter_nil, isSourceCompleteEvt]
    simp [List.nil_append, List.append_nil]

end SourceCrate



